import Mathlib

/-!
Verification of the stream process supervisor in src/app.py.

The Python source is shallowly embedded: the persistent JSON documents become
pure values, the per-stream files on disk become components of an explicit
state record, and each Python function that the claims mention becomes a Lean
function over that state.  Timestamps are modelled as integers (seconds),
process ids as naturals, and the OS process table as a list of
(pid, process name) pairs.
-/

namespace App

/-! ## Rate limiter (src/app.py lines 102-146)

The thumbnail upload ledger is a JSON object mapping string keys of the form
"upload_<int(timestamp)>" to timestamps.  We model it as an association list
from keys to integer timestamps; Python dict assignment overwrites the value
of an existing key, which dict_set reproduces. -/

/-- Python dict assignment on a string-keyed association list:
overwrite the value if the key is present, otherwise append the binding. -/
def dict_set (log : List (String × Int)) (k : String) (v : Int) :
    List (String × Int) :=
  if log.any (fun kv => kv.1 == k) then
    log.map (fun kv => if kv.1 == k then (k, v) else kv)
  else
    log ++ [(k, v)]

/-- can_upload_thumbnail (src/app.py lines 120-139): prune entries older than
24 hours, deny if 50 or more remain (daily cap), deny if 10 or more fall in
the last hour (hourly cap), otherwise allow. -/
def can_upload_thumbnail (log : List (String × Int)) (now : Int) :
    Bool × String :=
  let log_data := log.filter (fun kv => kv.2 > now - (24 * 60 * 60))
  if log_data.length ≥ 50 then
    (false, "Daily thumbnail upload limit reached (50/day). Try again tomorrow.")
  else
    let recent_uploads := log_data.filter (fun kv => kv.2 > now - 3600)
    if recent_uploads.length ≥ 10 then
      (false, "Hourly thumbnail upload limit reached (10/hour). Try again later.")
    else
      (true, "OK")

/-- record_thumbnail_upload (src/app.py lines 141-146): the ledger key is
built from the integer part of the timestamp, so two uploads recorded within
the same second share one key. -/
def record_thumbnail_upload (log : List (String × Int)) (now : Int) :
    List (String × Int) :=
  dict_set log ("upload_" ++ toString now) now

/-- n back-to-back check-then-record iterations at one timestamp.  The check
(can_upload_thumbnail) does not persist its pruned copy of the ledger, so
only record_thumbnail_upload changes the stored log. -/
def record_n_uploads : Nat → List (String × Int) → Int → List (String × Int)
  | 0, log, _ => log
  | n + 1, log, now => record_n_uploads n (record_thumbnail_upload log now) now

theorem filter_hourly_filter_daily (log : List (String × Int)) (now : Int) :
    (log.filter (fun kv => kv.2 > now - (24 * 60 * 60))).filter
        (fun kv => kv.2 > now - 3600) =
      log.filter (fun kv => kv.2 > now - 3600) := by
  rw [List.filter_filter]
  apply List.filter_congr
  intro kv _
  by_cases h : kv.2 > now - 3600
  · have h' : kv.2 > now - (24 * 60 * 60) := by omega
    simp [h, h']
    omega
  · simp [h]

/-- C4: for every ledger state and current time, the admission check returns
Allowed exactly when fewer than 10 entries lie in the trailing 3600 seconds
and fewer than 50 entries lie in the trailing 86400 seconds; entries older
than 24 hours count toward neither limit, and no calendar-day boundary is
involved. -/
theorem can_upload_thumbnail_iff (log : List (String × Int)) (now : Int) :
    (can_upload_thumbnail log now).1 = true ↔
      ((log.filter (fun kv => kv.2 > now - 3600)).length < 10 ∧
       (log.filter (fun kv => kv.2 > now - (24 * 60 * 60))).length < 50) := by
  by_cases h50 : (log.filter (fun kv => kv.2 > now - (24 * 60 * 60))).length ≥ 50
  · simp only [can_upload_thumbnail, if_pos h50]
    constructor
    · intro h; exact absurd h (by simp)
    · intro h; omega
  · by_cases h10 :
        ((log.filter (fun kv => kv.2 > now - (24 * 60 * 60))).filter
          (fun kv => kv.2 > now - 3600)).length ≥ 10
    · simp only [can_upload_thumbnail, if_neg h50, if_pos h10]
      rw [filter_hourly_filter_daily] at h10
      constructor
      · intro h; exact absurd h (by simp)
      · intro h; omega
    · simp only [can_upload_thumbnail, if_neg h50, if_neg h10]
      rw [filter_hourly_filter_daily] at h10
      constructor
      · intro _; omega
      · intro _; trivial

/-- C5: the ledger keys collapse same-second records.  Calling the
check-then-record pair 10 times at timestamp 0 leaves a single ledger entry,
so the very next admission check (one second later, well inside both windows)
still returns Allowed, where the claim demands Denied once N reaches 10. -/
theorem record_n_uploads_same_second_allows :
    (record_n_uploads 10 [] 0).length = 1 ∧
      (can_upload_thumbnail (record_n_uploads 10 [] 0) 1).1 = true := by
  constructor <;> rfl

/-! ## Encoder quality profiles (src/app.py lines 592-673) -/

structure QualitySettings where
  video_bitrate : String
  audio_bitrate : String
  maxrate : String
  bufsize : String
  scale : String
  fps : String
  deriving DecidableEq

/-- get_quality_settings (src/app.py lines 592-620): a fixed table for
"720p", "1080p" and "480p"; settings.get(quality, settings["720p"]) falls
back to the 720p profile for any other string. -/
def get_quality_settings (quality : String) (is_shorts : Bool) :
    QualitySettings :=
  if quality == "720p" then
    ⟨"2500k", "128k", "2750k", "5500k",
      if is_shorts then "720:1280" else "1280:720", "30"⟩
  else if quality == "1080p" then
    ⟨"4500k", "192k", "4950k", "9900k",
      if is_shorts then "1080:1920" else "1920:1080", "30"⟩
  else if quality == "480p" then
    ⟨"1000k", "96k", "1100k", "2200k",
      if is_shorts then "480:854" else "854:480", "30"⟩
  else
    ⟨"2500k", "128k", "2750k", "5500k",
      if is_shorts then "720:1280" else "1280:720", "30"⟩

/-- The RTMP ingest URL built by run_ffmpeg (src/app.py line 624). -/
def ffmpeg_output_url (stream_key : String) : String :=
  "rtmp://a.rtmp.youtube.com/live2/" ++ stream_key

/-- minrate derived in run_ffmpeg (src/app.py line 651):
str(int(video_bitrate.replace('k', '')) // 2) + "k". -/
def minrate_of (video_bitrate : String) : String :=
  toString (((video_bitrate.replace "k" "").toNat?.getD 0) / 2) ++ "k"

/-- The ffmpeg argument list assembled by run_ffmpeg (src/app.py lines
633-673) as a function of the quality settings. -/
def ffmpeg_cmd (video_path stream_key : String) (s : QualitySettings) :
    List String :=
  ["ffmpeg", "-hide_banner", "-loglevel", "info", "-re",
   "-stream_loop", "-1", "-i", video_path,
   "-c:v", "libx264", "-preset", "veryfast", "-tune", "zerolatency",
   "-profile:v", "high", "-level", "4.1", "-pix_fmt", "yuv420p",
   "-b:v", s.video_bitrate, "-maxrate", s.maxrate, "-bufsize", s.bufsize,
   "-minrate", minrate_of s.video_bitrate,
   "-g", "60", "-keyint_min", "30", "-sc_threshold", "0",
   "-r", s.fps,
   "-c:a", "aac", "-b:a", s.audio_bitrate, "-ar", "44100", "-ac", "2",
   "-vf", "scale=" ++ s.scale ++ ":force_original_aspect_ratio=decrease,pad="
     ++ s.scale ++ ":(ow-iw)/2:(oh-ih)/2,fps=" ++ s.fps,
   "-f", "flv", "-reconnect", "1", "-reconnect_streamed", "1",
   "-reconnect_delay_max", "5",
   ffmpeg_output_url stream_key]

/-- C10: any quality string other than "480p", "720p", "1080p" yields exactly
the 720p profile (2500k video, 128k audio, 2750k maxrate, 5500k bufsize,
30 fps), and the assembled ffmpeg command is the same as for "720p", so an
unrecognized quality starts a stream exactly like "720p" instead of
failing. -/
theorem get_quality_settings_default (q : String) (b : Bool)
    (h480 : q ≠ "480p") (h720 : q ≠ "720p") (h1080 : q ≠ "1080p") :
    get_quality_settings q b = get_quality_settings "720p" b ∧
    (get_quality_settings q b).video_bitrate = "2500k" ∧
    (get_quality_settings q b).audio_bitrate = "128k" ∧
    (get_quality_settings q b).maxrate = "2750k" ∧
    (get_quality_settings q b).bufsize = "5500k" ∧
    (get_quality_settings q b).fps = "30" ∧
    ∀ video_path stream_key,
      ffmpeg_cmd video_path stream_key (get_quality_settings q b) =
        ffmpeg_cmd video_path stream_key (get_quality_settings "720p" b) := by
  have e720 : (q == "720p") = false := by simp [h720]
  have e1080 : (q == "1080p") = false := by simp [h1080]
  have e480 : (q == "480p") = false := by simp [h480]
  have hq : get_quality_settings q b = get_quality_settings "720p" b := by
    simp [get_quality_settings, e720, e1080, e480]
  refine ⟨hq, ?_, ?_, ?_, ?_, ?_, fun v k => by rw [hq]⟩ <;>
    rw [hq] <;> cases b <;> rfl

/-- Witness for C10 at the concrete unrecognized quality "4K". -/
theorem get_quality_settings_default_witness :
    ("4K" ≠ "480p" ∧ "4K" ≠ "720p" ∧ "4K" ≠ "1080p") ∧
      get_quality_settings "4K" true = get_quality_settings "720p" true := by
  refine ⟨⟨by decide, by decide, by decide⟩, ?_⟩
  exact (get_quality_settings_default "4K" true (by decide) (by decide)
    (by decide)).1

/-! ## Supervisor state

One record per row of the streams DataFrame (streams_data.json), plus the
per-stream files on disk and the active_streams.json index.  Markers
(stream_<id>.status) and active entries are accessed only by key in the
source, so they are modelled as functions from row id; pid files are
enumerated by a directory listing in reconnect_to_existing_streams, so they
are modelled as an association list (the listing). -/

structure ActiveEntry where
  pid : Nat
  startedAt : Nat
  deriving DecidableEq

structure StreamRow where
  video : String
  durasi : String
  jamMulai : String
  streamingKey : String
  status : String
  isShorts : Bool
  quality : String
  deriving DecidableEq

@[ext]
structure SupState where
  streams : List StreamRow
  markers : Nat → Option String
  pidFiles : List (Nat × Nat)
  active : Nat → Option ActiveEntry

/-- The OS process table: live pids with their process names. -/
abbrev ProcTable := List (Nat × String)

/-- Whether the first character list starts the second one. -/
def listIsPre : List Char → List Char → Bool
  | [], _ => true
  | _ :: _, [] => false
  | a :: as, b :: bs => a == b && listIsPre as bs

/-- Substring occurrence on character lists. -/
def listHasSub : List Char → List Char → Bool
  | _, [] => true
  | [], _ :: _ => false
  | a :: rest, b :: bs => listIsPre (b :: bs) (a :: rest) || listHasSub rest (b :: bs)

/-- ASCII lower-casing of one character. -/
def lowerChar (c : Char) : Char :=
  if 65 ≤ c.toNat ∧ c.toNat ≤ 90 then Char.ofNat (c.toNat + 32) else c

/-- ASCII lower-casing of a string (str.lower()). -/
def lowerStr (s : String) : String := String.mk (s.data.map lowerChar)

/-- Substring test (Python's sub in s). -/
def containsSub (s sub : String) : Bool :=
  listHasSub s.data sub.data

/-- is_process_running (src/app.py lines 534-543): the pid exists and the
process name contains "ffmpeg" (case-insensitively). -/
def is_process_running (tbl : ProcTable) (pid : Nat) : Bool :=
  tbl.any (fun e => e.1 == pid && containsSub (lowerStr e.2) "ffmpeg")

/-- Point update of a keyed map. -/
def updFun {α : Type} (f : Nat → Option α) (k : Nat) (v : Option α) :
    Nat → Option α :=
  fun j => if j = k then v else f j

@[simp]
theorem updFun_self {α : Type} (f : Nat → Option α) (k : Nat) (v : Option α) :
    updFun f k v k = v := by
  simp [updFun]

theorem updFun_ne {α : Type} (f : Nat → Option α) (k j : Nat) (v : Option α)
    (h : j ≠ k) : updFun f k v j = f j := by
  simp [updFun, h]

/-- Keyed read of the pid-file listing (open stream_<id>.pid). -/
def lookupKey : Nat → List (Nat × Nat) → Option Nat
  | _, [] => none
  | k, e :: es => if e.1 = k then some e.2 else lookupKey k es

/-- Deleting a file from the pid-file listing. -/
def eraseKey (k : Nat) (l : List (Nat × Nat)) : List (Nat × Nat) :=
  l.filter (fun e => e.1 != k)

theorem lookup_eraseKey_self (k : Nat) (l : List (Nat × Nat)) :
    lookupKey k (eraseKey k l) = none := by
  induction l with
  | nil => rfl
  | cons e rest ih =>
    by_cases h : e.1 = k
    · have hb : (e.1 != k) = false := by simp [h]
      simp only [eraseKey, List.filter_cons, hb]
      simp only [Bool.false_eq_true, if_false]
      exact ih
    · have hb : (e.1 != k) = true := by simp [h]
      simp only [eraseKey, List.filter_cons, hb, if_true]
      simp only [lookupKey, h, if_false]
      exact ih

theorem lookup_eraseKey_ne (k j : Nat) (l : List (Nat × Nat)) (h : j ≠ k) :
    lookupKey j (eraseKey k l) = lookupKey j l := by
  induction l with
  | nil => rfl
  | cons e rest ih =>
    by_cases he : e.1 = k
    · have hb : (e.1 != k) = false := by simp [he]
      have hej : e.1 ≠ j := by rw [he]; exact Ne.symm h
      simp only [eraseKey, List.filter_cons, hb, Bool.false_eq_true, if_false]
      simp only [lookupKey, hej, if_false]
      exact ih
    · have hb : (e.1 != k) = true := by simp [he]
      simp only [eraseKey, List.filter_cons, hb, if_true]
      by_cases hej : e.1 = j
      · simp only [lookupKey, hej, if_true]
      · simp only [lookupKey, hej, if_false]
        exact ih

/-- Replace the status field of one row (pandas .loc[row_id, 'Status'] = v);
out-of-range indices leave the frame unchanged. -/
def setRowStatus : List StreamRow → Nat → String → List StreamRow
  | [], _, _ => []
  | r :: rs, 0, v => { r with status := v } :: rs
  | r :: rs, n + 1, v => r :: setRowStatus rs n v

/-- A row with its status replaced. -/
def withStatus (r : StreamRow) (v : String) : StreamRow :=
  { r with status := v }

@[simp]
theorem setRowStatus_length (l : List StreamRow) (i : Nat) (v : String) :
    (setRowStatus l i v).length = l.length := by
  induction l generalizing i with
  | nil => rfl
  | cons r rs ih =>
    cases i with
    | zero => rfl
    | succ n => simp [setRowStatus, ih]

theorem getElem?_setRowStatus_ne (l : List StreamRow) (i j : Nat) (v : String)
    (h : j ≠ i) : (setRowStatus l i v)[j]? = l[j]? := by
  induction l generalizing i j with
  | nil => rfl
  | cons r rs ih =>
    cases i with
    | zero =>
      cases j with
      | zero => exact absurd rfl h
      | succ m => simp [setRowStatus]
    | succ n =>
      cases j with
      | zero => simp [setRowStatus]
      | succ m =>
        simp only [setRowStatus, List.getElem?_cons_succ]
        exact ih n m (fun hc => h (by simp [hc]))

theorem getElem?_setRowStatus_self (l : List StreamRow) (i : Nat) (v : String) :
    (setRowStatus l i v)[i]? = (l[i]?).map (fun r => withStatus r v) := by
  induction l generalizing i with
  | nil => simp [setRowStatus]
  | cons r rs ih =>
    cases i with
    | zero => simp [setRowStatus, withStatus]
    | succ n => simpa [setRowStatus] using ih n

/-- cleanup_stream_files (src/app.py lines 578-590): remove the pid file and
the status marker of one stream. -/
def cleanup_stream_files (s : SupState) (row_id : Nat) : SupState :=
  { s with pidFiles := eraseKey row_id s.pidFiles,
           markers := updFun s.markers row_id none }

/-! ## start_stream and stop_stream (src/app.py lines 758-836) -/

/-- start_stream (src/app.py lines 758-777): set the row status to
'Sedang Live', persist, write the marker "starting", and hand the rest to a
background run_ffmpeg thread; returns True.  No check of the active-stream
index or of any other state is performed. -/
def start_stream (video_path stream_key : String) (is_shorts : Bool)
    (row_id : Nat) (quality : String) (s : SupState) : SupState × Bool :=
  let s1 := { s with streams := setRowStatus s.streams row_id "Sedang Live" }
  let s2 := { s1 with markers := updFun s1.markers row_id (some "starting") }
  (s2, true)

/-- The externally visible actions of stop_stream on the OS. -/
inductive Action where
  | sigTermGroup (pid : Nat)
  | sleepSeconds (n : Nat)
  | sigKillGroup (pid : Nat)
  deriving DecidableEq

/-- Python truthiness of the optional pid (None and 0 are falsy). -/
def pidTruthy : Option Nat → Bool
  | none => false
  | some p => p != 0

/-- Pid resolution at the top of stop_stream (src/app.py lines 784-790):
take the pid from the active index; if that is falsy, fall back to the pid
file when it exists. -/
def resolve_stop_pid (s : SupState) (row_id : Nat) : Option Nat :=
  let pidA : Option Nat := (s.active row_id).map (fun e => e.pid)
  if pidTruthy pidA then pidA
  else
    match lookupKey row_id s.pidFiles with
    | some p => some p
    | none => pidA

/-- stop_stream (src/app.py lines 779-836, POSIX branch): resolve a pid from
the active index, falling back to the pid file; if the pid is truthy and the
process is running, SIGTERM its group, sleep 2 seconds, SIGKILL the group if
it is still running (tblAfter is the process table after the grace period);
in both branches set the row status to 'Dihentikan', drop the active entry,
and remove the pid and marker files; returns True. -/
def stop_stream (tbl tblAfter : ProcTable) (row_id : Nat) (s : SupState) :
    SupState × Bool × List Action :=
  match resolve_stop_pid s row_id with
  | some p =>
    if p != 0 && is_process_running tbl p then
      let acts := [Action.sigTermGroup p, Action.sleepSeconds 2] ++
        (if is_process_running tblAfter p then [Action.sigKillGroup p] else [])
      let s1 := { s with streams := setRowStatus s.streams row_id "Dihentikan" }
      let s2 := { s1 with markers := updFun s1.markers row_id (some "stopped") }
      let s3 := { s2 with active := updFun s2.active row_id none }
      (cleanup_stream_files s3 row_id, true, acts)
    else
      let s1 := { s with streams := setRowStatus s.streams row_id "Dihentikan" }
      let s2 := cleanup_stream_files s1 row_id
      let s3 := { s2 with active := updFun s2.active row_id none }
      (s3, true, [])
  | none =>
    let s1 := { s with streams := setRowStatus s.streams row_id "Dihentikan" }
    let s2 := cleanup_stream_files s1 row_id
    let s3 := { s2 with active := updFun s2.active row_id none }
    (s3, true, [])

/-- A one-row state with an active entry, used as concrete counterexample
input: the stream row is 'Sedang Live' and active_streams records pid 42. -/
def exampleBusyState : SupState :=
  { streams := [⟨"video.mp4", "60", "14:00", "key-1", "Sedang Live", false,
      "720p"⟩],
    markers := fun j => if j = 0 then some "streaming" else none,
    pidFiles := [(0, 42)],
    active := fun j => if j = 0 then some ⟨42, 7⟩ else none }

/-- A one-row state with no active entry, no pid file and no marker. -/
def exampleIdleState : SupState :=
  { streams := [⟨"video.mp4", "60", "14:00", "key-1", "Menunggu", false,
      "720p"⟩],
    markers := fun _ => none,
    pidFiles := [],
    active := fun _ => none }

/-- C1 counterexample: an ActiveProcessEntry for row 0 exists, yet
start_stream succeeds (returns True), and a second start on the same id
succeeds again — the AlreadyRunning failure demanded by the claim does not
exist in the code. -/
theorem start_stream_no_single_flight :
    exampleBusyState.active 0 = some ⟨42, 7⟩ ∧
    (start_stream "video.mp4" "key-1" false 0 "720p" exampleBusyState).2
      = true ∧
    (start_stream "video.mp4" "key-1" false 0 "720p"
      (start_stream "video.mp4" "key-1" false 0 "720p" exampleBusyState).1).2
      = true := by
  exact ⟨rfl, rfl, rfl⟩

/-- C1 amended: start_stream never fails with AlreadyRunning; it performs no
presence check against the active-stream index, succeeds unconditionally
(status 'Sedang Live', marker "starting"), leaves the index untouched, and
two consecutive start calls for the same id therefore both succeed. -/
theorem start_stream_always_succeeds (video_path stream_key : String)
    (is_shorts : Bool) (row_id : Nat) (quality : String) (s : SupState) :
    (start_stream video_path stream_key is_shorts row_id quality s).2 = true ∧
    (start_stream video_path stream_key is_shorts row_id quality
      (start_stream video_path stream_key is_shorts row_id quality s).1).2
      = true ∧
    (start_stream video_path stream_key is_shorts row_id quality s).1.active
      = s.active ∧
    (start_stream video_path stream_key is_shorts row_id quality s).1.markers
      row_id = some "starting" ∧
    (start_stream video_path stream_key is_shorts row_id quality
        s).1.streams[row_id]? =
      (s.streams[row_id]?).map (fun r => withStatus r "Sedang Live") := by
  refine ⟨rfl, rfl, rfl, by simp [start_stream], ?_⟩
  simp [start_stream, getElem?_setRowStatus_self]

/-- C6 counterexample: no ActiveProcessEntry (and no pid file) exists for
row 0, yet stop_stream succeeds (returns True) instead of failing with
NotRunning. -/
theorem stop_stream_no_not_running_failure :
    exampleIdleState.active 0 = none ∧
    lookupKey 0 exampleIdleState.pidFiles = none ∧
    (stop_stream [] [] 0 exampleIdleState).2.1 = true := by
  exact ⟨rfl, rfl, rfl⟩

/-- C6 amended: for a stream with no ActiveProcessEntry and no pid file,
stop_stream does not fail: it returns True, performs no kill action, sets the
row status to 'Dihentikan' and leaves no active entry, marker or pid file. -/
theorem stop_stream_without_entry_succeeds (tbl tblAfter : ProcTable)
    (row_id : Nat) (s : SupState) (hA : s.active row_id = none)
    (hP : lookupKey row_id s.pidFiles = none) :
    (stop_stream tbl tblAfter row_id s).2.1 = true ∧
    (stop_stream tbl tblAfter row_id s).2.2 = [] ∧
    (stop_stream tbl tblAfter row_id s).1.streams[row_id]? =
      (s.streams[row_id]?).map (fun r => withStatus r "Dihentikan") ∧
    (stop_stream tbl tblAfter row_id s).1.active row_id = none ∧
    (stop_stream tbl tblAfter row_id s).1.markers row_id = none ∧
    lookupKey row_id (stop_stream tbl tblAfter row_id s).1.pidFiles
      = none := by
  have hres : resolve_stop_pid s row_id = none := by
    simp [resolve_stop_pid, hA, hP, pidTruthy]
  simp only [stop_stream, hres]
  refine ⟨trivial, trivial, ?_, ?_, ?_, ?_⟩
  · simp [cleanup_stream_files, getElem?_setRowStatus_self]
  · simp [cleanup_stream_files]
  · simp [cleanup_stream_files]
  · simp [cleanup_stream_files, lookup_eraseKey_self]

/-- Witness for C6 amended at the concrete idle state. -/
theorem stop_stream_without_entry_succeeds_witness :
    (exampleIdleState.active 0 = none ∧
      lookupKey 0 exampleIdleState.pidFiles = none) ∧
    (stop_stream [] [] 0 exampleIdleState).2.1 = true := by
  refine ⟨⟨rfl, rfl⟩, ?_⟩
  exact (stop_stream_without_entry_succeeds [] [] 0 exampleIdleState rfl
    rfl).1

/-- C7: stopping a running stream sends SIGTERM to the process group, waits
the 2-second grace period, escalates to SIGKILL exactly when the process
survived the grace period, and in every case (forced kill included) returns
True with the row status 'Dihentikan' and no active entry, marker or pid
file left for the stream. -/
theorem stop_stream_running (tbl tblAfter : ProcTable) (row_id : Nat)
    (s : SupState) (entry : ActiveEntry) (hA : s.active row_id = some entry)
    (hpid : entry.pid ≠ 0) (hrun : is_process_running tbl entry.pid = true) :
    (stop_stream tbl tblAfter row_id s).2.1 = true ∧
    (stop_stream tbl tblAfter row_id s).2.2 =
      [Action.sigTermGroup entry.pid, Action.sleepSeconds 2] ++
        (if is_process_running tblAfter entry.pid then
          [Action.sigKillGroup entry.pid] else []) ∧
    (stop_stream tbl tblAfter row_id s).1.streams[row_id]? =
      (s.streams[row_id]?).map (fun r => withStatus r "Dihentikan") ∧
    (stop_stream tbl tblAfter row_id s).1.active row_id = none ∧
    (stop_stream tbl tblAfter row_id s).1.markers row_id = none ∧
    lookupKey row_id (stop_stream tbl tblAfter row_id s).1.pidFiles
      = none := by
  have hne : (entry.pid != 0) = true := by simp [hpid]
  have hres : resolve_stop_pid s row_id = some entry.pid := by
    simp [resolve_stop_pid, hA, pidTruthy, hne]
  have hcond : (entry.pid != 0 && is_process_running tbl entry.pid) = true := by
    rw [hne, hrun]; rfl
  simp only [stop_stream, hres, hcond, if_true]
  refine ⟨trivial, trivial, ?_, ?_, ?_, ?_⟩
  · simp [cleanup_stream_files, getElem?_setRowStatus_self]
  · simp [cleanup_stream_files]
  · simp [cleanup_stream_files]
  · simp [cleanup_stream_files, lookup_eraseKey_self]

/-- Witness for C7: the busy example state with pid 42 live (and still live
after the grace period, so the forced-kill path is taken). -/
theorem stop_stream_running_witness :
    (exampleBusyState.active 0 = some ⟨42, 7⟩ ∧ (42 : Nat) ≠ 0 ∧
      is_process_running [(42, "ffmpeg")] 42 = true) ∧
    (stop_stream [(42, "ffmpeg")] [(42, "ffmpeg")] 0 exampleBusyState).2.2 =
      [Action.sigTermGroup 42, Action.sleepSeconds 2,
        Action.sigKillGroup 42] := by
  refine ⟨⟨rfl, by decide, by decide⟩, ?_⟩
  have h := (stop_stream_running [(42, "ffmpeg")] [(42, "ffmpeg")] 0
    exampleBusyState ⟨42, 7⟩ rfl (by decide) (by decide)).2.1
  simpa using h

/-! ## run_ffmpeg lifecycle effects (src/app.py lines 622-756)

run_ffmpeg runs on its own thread.  We model its state effects at the three
program points the claims touch: the post-spawn writes, the post-wait writes,
and the finally-block cleanup.  The child's exit code is threaded through so
that theorems can speak about it; the source never reads process.returncode. -/

/-- Writing stream_<id>.pid (overwriting an existing file). -/
def writeKey (k v : Nat) (l : List (Nat × Nat)) : List (Nat × Nat) :=
  if l.any (fun e => e.1 == k) then
    l.map (fun e => if e.1 == k then (k, v) else e)
  else
    l ++ [(k, v)]

/-- Python's s.startswith(t). -/
def strStartsWith (s t : String) : Bool :=
  listIsPre t.data s.data

/-- run_ffmpeg after a successful Popen (src/app.py lines 698-709): write the
pid file, write marker "streaming", insert the ActiveProcessEntry. -/
def run_ffmpeg_spawn (row_id pid now : Nat) (s : SupState) : SupState :=
  let s1 := { s with pidFiles := writeKey row_id pid s.pidFiles }
  let s2 := { s1 with markers := updFun s1.markers row_id (some "streaming") }
  { s2 with active := updFun s2.active row_id (some ⟨pid, now⟩) }

/-- The log_output thread (src/app.py lines 711-720): scanning one diagnostic
line; a line containing "Connection refused" or "Server returned 4" overwrites
the marker with a fixed error message. -/
def log_output_scan (row_id : Nat) (line : String) (s : SupState) : SupState :=
  if containsSub line "Connection refused" || containsSub line "Server returned 4" then
    { s with
        markers := updFun s.markers row_id
          (some "error: YouTube connection failed") }
  else s

/-- run_ffmpeg after process.wait() returns (src/app.py lines 725-736): the
marker is overwritten with "completed" and the active entry removed; the exit
code is never consulted. -/
def run_ffmpeg_exit_update (row_id : Nat) (exitCode : Int) (s : SupState) :
    SupState :=
  let s1 := { s with markers := updFun s.markers row_id (some "completed") }
  { s1 with active := updFun s1.active row_id none }

/-- run_ffmpeg through its finally block (src/app.py lines 725-756): the
post-wait writes followed by cleanup_stream_files, which deletes the pid file
and the marker. -/
def run_ffmpeg_finish (row_id : Nat) (exitCode : Int) (s : SupState) :
    SupState :=
  cleanup_stream_files (run_ffmpeg_exit_update row_id exitCode s) row_id

/-! ## check_stream_statuses (src/app.py lines 838-880) -/

/-- The marker classification applied by check_stream_statuses when an active
entry's process has died: "completed" becomes 'Selesai', an "error:*" marker
is copied verbatim into the status, anything else becomes 'Terputus'. -/
def marker_status (m : String) : String :=
  if m == "completed" then "Selesai"
  else if strStartsWith m "error:" then m
  else "Terputus"

/-- One iteration of the check_stream_statuses loop for row idx. -/
def check_step (tbl : ProcTable) (st : SupState) (idx : Nat) : SupState :=
  match st.active idx with
  | some entry =>
    if is_process_running tbl entry.pid then st
    else
      match st.streams[idx]? with
      | some row =>
        if row.status == "Sedang Live" then
          let st1 :=
            match st.markers idx with
            | some m =>
              { st with
                  streams := setRowStatus st.streams idx (marker_status m),
                  markers := updFun st.markers idx none }
            | none => st
          let st2 := { st1 with active := updFun st1.active idx none }
          cleanup_stream_files st2 idx
        else st
      | none => st
  | none =>
    match st.streams[idx]?, st.markers idx with
    | some row, some m =>
      if m == "completed" && row.status == "Sedang Live" then
        { st with streams := setRowStatus st.streams idx "Selesai",
                  markers := updFun st.markers idx none }
      else if strStartsWith m "error:" && row.status == "Sedang Live" then
        { st with streams := setRowStatus st.streams idx m,
                  markers := updFun st.markers idx none }
      else st
    | _, _ => st

/-- check_stream_statuses iterates the per-row step over all rows. -/
def check_stream_statuses (tbl : ProcTable) (s : SupState) : SupState :=
  (List.range s.streams.length).foldl (check_step tbl) s

/-- All per-stream state visible at one row id. -/
def slotOf (s : SupState) (k : Nat) :
    Option StreamRow × Option String × Option ActiveEntry × Option Nat :=
  (s.streams[k]?, s.markers k, s.active k, lookupKey k s.pidFiles)

/-- The effect of one check_stream_statuses iteration on its own slot, as a
function of that slot alone. -/
def check_slot (tbl : ProcTable) :
    Option StreamRow × Option String × Option ActiveEntry × Option Nat →
      Option StreamRow × Option String × Option ActiveEntry × Option Nat
  | (r0, m0, some entry, p0) =>
    if is_process_running tbl entry.pid then (r0, m0, some entry, p0)
    else
      match r0 with
      | some row =>
        if row.status == "Sedang Live" then
          match m0 with
          | some m => (some (withStatus row (marker_status m)), none, none, none)
          | none => (some row, none, none, none)
        else (some row, m0, some entry, p0)
      | none => (none, m0, some entry, p0)
  | (r0, m0, none, p0) =>
    match r0, m0 with
    | some row, some m =>
      if m == "completed" && row.status == "Sedang Live" then
        (some (withStatus row "Selesai"), none, none, p0)
      else if strStartsWith m "error:" && row.status == "Sedang Live" then
        (some (withStatus row m), none, none, p0)
      else (some row, some m, none, p0)
    | _, _ => (r0, m0, none, p0)

theorem slotOf_check_step_ne (tbl : ProcTable) (st : SupState) (idx j : Nat)
    (h : j ≠ idx) : slotOf (check_step tbl st idx) j = slotOf st j := by
  have hs := getElem?_setRowStatus_ne st.streams idx j (h := h)
  unfold check_step
  cases hA : st.active idx with
  | some entry =>
    by_cases hr : is_process_running tbl entry.pid
    · simp [hr]
    · simp only [hr, if_false, Bool.false_eq_true]
      cases hS : st.streams[idx]? with
      | some row =>
        by_cases hl : row.status == "Sedang Live"
        · simp only [hl, if_true]
          cases hM : st.markers idx with
          | some m =>
            simp [slotOf, cleanup_stream_files, hs, updFun_ne _ idx j _ h,
              lookup_eraseKey_ne idx j _ h]
          | none =>
            simp [slotOf, cleanup_stream_files, updFun_ne _ idx j _ h,
              lookup_eraseKey_ne idx j _ h]
        · simp [hl]
      | none => simp
  | none =>
    cases hS : st.streams[idx]? with
    | some row =>
      cases hM : st.markers idx with
      | some m =>
        by_cases h1 : (m == "completed" && row.status == "Sedang Live") = true
        · simp [h1, slotOf, hs, updFun_ne _ idx j _ h]
        · by_cases h2 :
            (strStartsWith m "error:" && row.status == "Sedang Live") = true
          · simp [h1, h2, slotOf, hs, updFun_ne _ idx j _ h]
          · simp [h1, h2]
      | none => simp
    | none => simp

theorem slotOf_check_step_self (tbl : ProcTable) (st : SupState) (idx : Nat) :
    slotOf (check_step tbl st idx) idx = check_slot tbl (slotOf st idx) := by
  unfold check_step check_slot slotOf
  cases hA : st.active idx with
  | some entry =>
    by_cases hr : is_process_running tbl entry.pid
    · simp [hr, slotOf, hA]
    · simp only [hr, if_false, Bool.false_eq_true]
      cases hS : st.streams[idx]? with
      | some row =>
        by_cases hl : row.status == "Sedang Live"
        · simp only [hl, if_true]
          cases hM : st.markers idx with
          | some m =>
            simp [cleanup_stream_files, lookup_eraseKey_self,
              getElem?_setRowStatus_self, hS]
          | none => simp [cleanup_stream_files, lookup_eraseKey_self, hS, hM]
        · simp [hl, hS, hA]
      | none => simp [hS, hA]
  | none =>
    cases hS : st.streams[idx]? with
    | some row =>
      cases hM : st.markers idx with
      | some m =>
        by_cases h1 : (m == "completed" && row.status == "Sedang Live") = true
        · simp [h1, getElem?_setRowStatus_self, hS, hA]
        · by_cases h2 :
            (strStartsWith m "error:" && row.status == "Sedang Live") = true
          · simp [h1, h2, getElem?_setRowStatus_self, hS, hA]
          · simp [h1, h2, hS, hA, hM]
      | none => simp [hS, hM, hA]
    | none => simp [hS, hA]

theorem slotOf_check_fold_ne (tbl : ProcTable) (l : List Nat) (st : SupState)
    (k : Nat) (h : ∀ j ∈ l, j ≠ k) :
    slotOf (l.foldl (check_step tbl) st) k = slotOf st k := by
  induction l generalizing st with
  | nil => rfl
  | cons a rest ih =>
    rw [List.foldl_cons,
      ih _ (fun j hj => h j (List.mem_cons_of_mem a hj))]
    exact slotOf_check_step_ne tbl st a k
      (fun hc => h a (List.mem_cons_self a rest) hc.symm)

theorem slotOf_check_fold (tbl : ProcTable) (s : SupState) :
    ∀ n k, k < n →
      slotOf ((List.range n).foldl (check_step tbl) s) k =
        check_slot tbl (slotOf s k) := by
  intro n
  induction n with
  | zero => intro k hk; omega
  | succ n ih =>
    intro k hk
    rw [List.range_succ, List.foldl_append, List.foldl_cons, List.foldl_nil]
    by_cases hkn : k = n
    · subst hkn
      rw [slotOf_check_step_self]
      congr 1
      apply slotOf_check_fold_ne
      intro j hj
      have := List.mem_range.mp hj
      omega
    · rw [slotOf_check_step_ne tbl _ n k hkn]
      exact ih k (by omega)

theorem slotOf_check (tbl : ProcTable) (s : SupState) (k : Nat)
    (hk : k < s.streams.length) :
    slotOf (check_stream_statuses tbl s) k = check_slot tbl (slotOf s k) :=
  slotOf_check_fold tbl s s.streams.length k hk

/-- A one-row state whose child died after the log_output thread recorded a
connection error: the marker survived because run_ffmpeg has not yet
overwritten it. -/
def exampleErrState : SupState :=
  { streams := [⟨"video.mp4", "60", "14:00", "key-1", "Sedang Live", false,
      "720p"⟩],
    markers := fun j => if j = 0 then some "error:Connection refused" else none,
    pidFiles := [(0, 37)],
    active := fun j => if j = 0 then some ⟨37, 3⟩ else none }

/-- C2 counterexample: the child of row 0 exits with code 1 (nonzero); after
run_ffmpeg's own exit handling (which writes "completed" regardless of the
exit code and then removes the marker in its finally block) and a
check_stream_statuses pass, the stream's status is still "Sedang Live" — not
an Errored status, contradicting the claimed exit-code classification. -/
theorem exit_code_not_classified :
    (((check_stream_statuses []
          (run_ffmpeg_finish 0 1 exampleBusyState)).streams[0]?).map
        StreamRow.status = some "Sedang Live") ∧
      strStartsWith "Sedang Live" "error:" = false := by
  exact ⟨rfl, rfl⟩

/-- C2 amended: the final status is classified from the lifecycle marker, not
the exit code.  run_ffmpeg writes marker "completed" after the child exits
whatever the exit code is (and its finally block then deletes the marker),
and check_stream_statuses, on observing a dead process for an active entry of
a 'Sedang Live' row with a surviving marker, sets the status to 'Selesai' for
"completed", copies an "error:*" marker verbatim, and otherwise writes
'Terputus', clearing the marker and the active entry. -/
theorem status_classified_by_marker (tbl : ProcTable) (s s2 : SupState)
    (row_id idx : Nat) (entry : ActiveEntry) (row : StreamRow) (m : String)
    (hA : s2.active idx = some entry)
    (hrun : is_process_running tbl entry.pid = false)
    (hS : s2.streams[idx]? = some row) (hst : row.status = "Sedang Live")
    (hM : s2.markers idx = some m) (hidx : idx < s2.streams.length) :
    (∀ c1 c2 : Int,
      run_ffmpeg_finish row_id c1 s = run_ffmpeg_finish row_id c2 s) ∧
    (∀ c : Int,
      (run_ffmpeg_exit_update row_id c s).markers row_id = some "completed" ∧
      (run_ffmpeg_finish row_id c s).markers row_id = none) ∧
    ((check_stream_statuses tbl s2).streams[idx]?).map StreamRow.status
      = some (marker_status m) ∧
    (check_stream_statuses tbl s2).markers idx = none ∧
    (check_stream_statuses tbl s2).active idx = none := by
  have h := slotOf_check tbl s2 idx hidx
  rw [slotOf, slotOf, hA, hS, hM] at h
  have hb : (row.status == "Sedang Live") = true := by
    rw [hst]; rfl
  simp only [check_slot, hrun, Bool.false_eq_true, if_false, hb, if_true]
  at h
  simp only [Prod.mk.injEq] at h
  refine ⟨fun c1 c2 => rfl, fun c => ⟨by simp [run_ffmpeg_exit_update],
    by simp [run_ffmpeg_finish, run_ffmpeg_exit_update,
      cleanup_stream_files]⟩, ?_, ?_, ?_⟩
  · rw [h.1]; rfl
  · exact h.2.1
  · exact h.2.2.1

/-- Witness for C2 amended: the error-marker state with a dead pid. -/
theorem status_classified_by_marker_witness :
    (exampleErrState.active 0 = some ⟨37, 3⟩ ∧
      is_process_running [] (37 : Nat) = false ∧
      exampleErrState.markers 0 = some "error:Connection refused") ∧
    ((check_stream_statuses [] exampleErrState).streams[0]?).map
        StreamRow.status = some "error:Connection refused" := by
  refine ⟨⟨rfl, rfl, rfl⟩, ?_⟩
  have h := (status_classified_by_marker [] exampleErrState exampleErrState
    0 0 ⟨37, 3⟩ ⟨"video.mp4", "60", "14:00", "key-1", "Sedang Live", false,
      "720p"⟩ "error:Connection refused" rfl rfl rfl rfl rfl
    (by decide)).2.2.1
  rw [h]; rfl

/-! ## check_scheduled_streams (src/app.py lines 882-889)

current_time is the wall clock formatted "%H:%M", so scheduled-time matching
is exact string equality at minute granularity.  Each row whose status is
'Menunggu' and whose Jam Mulai equals the current minute is started.  The
returned list records the row ids passed to start_stream, in order. -/

/-- One iteration of the scheduler loop for row idx. -/
def sched_step (hhmm : String) (acc : SupState × List Nat) (idx : Nat) :
    SupState × List Nat :=
  match acc.1.streams[idx]? with
  | some row =>
    if row.status == "Menunggu" && row.jamMulai == hhmm then
      ((start_stream row.video row.streamingKey row.isShorts idx
          row.quality acc.1).1,
        acc.2 ++ [idx])
    else acc
  | none => acc

/-- check_scheduled_streams: one tick over all rows. -/
def check_scheduled_streams (hhmm : String) (s : SupState) :
    SupState × List Nat :=
  (List.range s.streams.length).foldl (sched_step hhmm) (s, [])

/-- Whether the scheduler's firing condition holds for row j of state s. -/
def sched_match (hhmm : String) (s : SupState) (j : Nat) : Bool :=
  match s.streams[j]? with
  | some row => row.status == "Menunggu" && row.jamMulai == hhmm
  | none => false

/-- The effect of one scheduler iteration on its own slot. -/
def sched_slot (hhmm : String) :
    Option StreamRow × Option String × Option ActiveEntry × Option Nat →
      Option StreamRow × Option String × Option ActiveEntry × Option Nat
  | (some row, m0, a0, p0) =>
    if row.status == "Menunggu" && row.jamMulai == hhmm then
      (some (withStatus row "Sedang Live"), some "starting", a0, p0)
    else (some row, m0, a0, p0)
  | (none, m0, a0, p0) => (none, m0, a0, p0)

theorem sched_step_fst_ne (hhmm : String) (acc : SupState × List Nat)
    (idx j : Nat) (h : j ≠ idx) :
    slotOf (sched_step hhmm acc idx).1 j = slotOf acc.1 j := by
  unfold sched_step
  cases hS : acc.1.streams[idx]? with
  | some row =>
    by_cases hm : (row.status == "Menunggu" && row.jamMulai == hhmm) = true
    · simp [hm, start_stream, slotOf, getElem?_setRowStatus_ne _ idx j _ h,
        updFun_ne _ idx j _ h]
    · simp [hm]
  | none => simp

theorem sched_step_fst_self (hhmm : String) (acc : SupState × List Nat)
    (idx : Nat) :
    slotOf (sched_step hhmm acc idx).1 idx = sched_slot hhmm (slotOf acc.1 idx) := by
  unfold sched_step sched_slot slotOf
  cases hS : acc.1.streams[idx]? with
  | some row =>
    by_cases hm : (row.status == "Menunggu" && row.jamMulai == hhmm) = true
    · simp [hm, start_stream, getElem?_setRowStatus_self, hS]
    · simp [hm, hS]
  | none => simp [hS]

theorem sched_match_eq_of_slot (hhmm : String) (s s' : SupState) (j : Nat)
    (h : slotOf s' j = slotOf s j) :
    sched_match hhmm s' j = sched_match hhmm s j := by
  have h1 : s'.streams[j]? = s.streams[j]? := congrArg Prod.fst h
  unfold sched_match
  rw [h1]

theorem sched_fold_snd (hhmm : String) (l : List Nat) (hl : l.Nodup) :
    ∀ (st : SupState) (acc : List Nat),
      (l.foldl (sched_step hhmm) (st, acc)).2 =
        acc ++ l.filter (fun j => sched_match hhmm st j) := by
  induction l with
  | nil => intro st acc; simp
  | cons a rest ih =>
    intro st acc
    have hna : a ∉ rest := (List.nodup_cons.mp hl).1
    have hrest : rest.Nodup := (List.nodup_cons.mp hl).2
    rw [List.foldl_cons]
    have hstep2 : (sched_step hhmm (st, acc) a).2 =
        if sched_match hhmm st a then acc ++ [a] else acc := by
      unfold sched_step sched_match
      cases hS : st.streams[a]? with
      | some row =>
        by_cases hm : (row.status == "Menunggu" && row.jamMulai == hhmm) = true
        · simp [hm]
        · simp [hm]
      | none => simp
    have hfilter : rest.filter
        (fun j => sched_match hhmm (sched_step hhmm (st, acc) a).1 j) =
        rest.filter (fun j => sched_match hhmm st j) := by
      apply List.filter_congr
      intro j hj
      have hja : j ≠ a := fun hc => hna (hc ▸ hj)
      exact sched_match_eq_of_slot hhmm st _ j
        (sched_step_fst_ne hhmm (st, acc) a j hja)
    by_cases hm : sched_match hhmm st a = true
    · have : sched_step hhmm (st, acc) a =
          ((sched_step hhmm (st, acc) a).1, (sched_step hhmm (st, acc) a).2) := rfl
      rw [this, ih hrest _ _, hstep2, if_pos hm, hfilter,
        List.filter_cons_of_pos hm]
      simp
    · have hmf : sched_match hhmm st a = false := by
        revert hm; cases sched_match hhmm st a <;> simp
      have : sched_step hhmm (st, acc) a =
          ((sched_step hhmm (st, acc) a).1, (sched_step hhmm (st, acc) a).2) := rfl
      rw [this, ih hrest _ _, hstep2, if_neg (by simp [hmf]), hfilter,
        List.filter_cons_of_neg (by simp [hmf])]

theorem sched_fold_fst_ne (hhmm : String) (l : List Nat)
    (acc : SupState × List Nat) (k : Nat) (h : ∀ j ∈ l, j ≠ k) :
    slotOf (l.foldl (sched_step hhmm) acc).1 k = slotOf acc.1 k := by
  induction l generalizing acc with
  | nil => rfl
  | cons a rest ih =>
    rw [List.foldl_cons,
      ih _ (fun j hj => h j (List.mem_cons_of_mem a hj))]
    exact sched_step_fst_ne hhmm acc a k
      (fun hc => h a (List.mem_cons_self a rest) hc.symm)

theorem sched_fold_fst (hhmm : String) (s : SupState) :
    ∀ n k, k < n →
      slotOf ((List.range n).foldl (sched_step hhmm) (s, [])).1 k =
        sched_slot hhmm (slotOf s k) := by
  intro n
  induction n with
  | zero => intro k hk; omega
  | succ n ih =>
    intro k hk
    rw [List.range_succ, List.foldl_append, List.foldl_cons, List.foldl_nil]
    by_cases hkn : k = n
    · subst hkn
      rw [sched_step_fst_self]
      congr 1
      apply sched_fold_fst_ne
      intro j hj
      have := List.mem_range.mp hj
      omega
    · rw [sched_step_fst_ne hhmm _ n k hkn]
      exact ih k (by omega)

/-- C8: one scheduler tick starts a waiting row whose scheduled HH:MM equals
the current minute exactly once (its id appears exactly once in the list of
start_stream invocations) and leaves it 'Sedang Live'; a row whose scheduled
time differs from the current minute is not started and keeps its record
unchanged. -/
theorem check_scheduled_streams_fires (hhmm : String) (s : SupState)
    (idx : Nat) (row : StreamRow) (hS : s.streams[idx]? = some row) :
    (row.status = "Menunggu" → row.jamMulai = hhmm →
      ((check_scheduled_streams hhmm s).2.count idx = 1 ∧
       ((check_scheduled_streams hhmm s).1.streams[idx]?).map
           StreamRow.status = some "Sedang Live")) ∧
    (row.jamMulai ≠ hhmm →
      (idx ∉ (check_scheduled_streams hhmm s).2 ∧
       (check_scheduled_streams hhmm s).1.streams[idx]? = some row)) := by
  have hidx : idx < s.streams.length := by
    by_contra hc
    rw [List.getElem?_eq_none (by omega)] at hS
    exact Option.noConfusion hS
  have hsnd : (check_scheduled_streams hhmm s).2 =
      (List.range s.streams.length).filter (fun j => sched_match hhmm s j) := by
    have := sched_fold_snd hhmm (List.range s.streams.length)
      (List.nodup_range s.streams.length) s []
    simpa [check_scheduled_streams] using this
  have hfst := sched_fold_fst hhmm s s.streams.length idx hidx
  constructor
  · intro hw hj
    have hm : sched_match hhmm s idx = true := by
      simp [sched_match, hS, hw, hj]
    constructor
    · rw [hsnd]
      apply List.count_eq_one_of_mem
      · exact (List.nodup_range s.streams.length).filter _
      · rw [List.mem_filter]
        exact ⟨List.mem_range.mpr hidx, hm⟩
    · have h1 : (check_scheduled_streams hhmm s).1.streams[idx]? =
          (sched_slot hhmm (slotOf s idx)).1 := by
        have := congrArg Prod.fst hfst
        simpa [check_scheduled_streams, slotOf] using this
      rw [h1, slotOf, hS]
      simp [sched_slot, hw, hj, withStatus]
  · intro hj
    have hm : sched_match hhmm s idx = false := by
      simp [sched_match, hS, hj]
    constructor
    · rw [hsnd]
      intro hc
      rw [List.mem_filter] at hc
      rw [hm] at hc
      exact Bool.noConfusion hc.2
    · have h1 : (check_scheduled_streams hhmm s).1.streams[idx]? =
          (sched_slot hhmm (slotOf s idx)).1 := by
        have := congrArg Prod.fst hfst
        simpa [check_scheduled_streams, slotOf] using this
      rw [h1, slotOf, hS]
      simp [sched_slot, hj]

/-- Witness for C8: the idle example row is scheduled for "14:00" and the
tick happens at "14:00" exactly. -/
theorem check_scheduled_streams_fires_witness :
    (exampleIdleState.streams[0]? = some ⟨"video.mp4", "60", "14:00",
        "key-1", "Menunggu", false, "720p"⟩) ∧
    (check_scheduled_streams "14:00" exampleIdleState).2.count 0 = 1 := by
  refine ⟨rfl, ?_⟩
  exact ((check_scheduled_streams_fires "14:00" exampleIdleState 0
    ⟨"video.mp4", "60", "14:00", "key-1", "Menunggu", false, "720p"⟩
    rfl).1 rfl rfl).1

/-! ## reconnect_to_existing_streams (src/app.py lines 545-576)

The reconciler enumerates the pid files on disk.  For each, if the recorded
pid is a live ffmpeg process, the row (when it exists) is marked
'Sedang Live' and re-adopted into active_streams with a fresh started_at
timestamp (the reconciliation time, passed as now); otherwise the pid file
and marker are deleted and the active entry dropped.  It never reads the
marker's contents and never writes a terminal status. -/

/-- One iteration of the reconnect loop for pid file e = (row id, pid). -/
def reconnect_step (tbl : ProcTable) (now : Nat) (st : SupState)
    (e : Nat × Nat) : SupState :=
  if is_process_running tbl e.2 then
    if e.1 < st.streams.length then
      { st with streams := setRowStatus st.streams e.1 "Sedang Live",
                active := updFun st.active e.1 (some ⟨e.2, now⟩) }
    else st
  else
    let st1 := cleanup_stream_files st e.1
    { st1 with active := updFun st1.active e.1 none }

/-- reconnect_to_existing_streams folds the per-file step over the pid-file
listing. -/
def reconnect_to_existing_streams (tbl : ProcTable) (now : Nat)
    (s : SupState) : SupState :=
  s.pidFiles.foldl (reconnect_step tbl now) s

/-- Whether the listing contains a pid file for key k whose process is dead. -/
def deadIn (tbl : ProcTable) (l : List (Nat × Nat)) (k : Nat) : Bool :=
  l.any (fun e => e.1 == k && !(is_process_running tbl e.2))

theorem bool_eq_false {b : Bool} (h : ¬b = true) : b = false := by
  cases b
  · rfl
  · exact absurd rfl h

theorem lookupKey_eq_none {k : Nat} {l : List (Nat × Nat)}
    (h : ∀ x ∈ l, x.1 ≠ k) : lookupKey k l = none := by
  induction l with
  | nil => rfl
  | cons e rest ih =>
    have he := h e (List.mem_cons_self e rest)
    simp only [lookupKey, he, if_false]
    exact ih (fun x hx => h x (List.mem_cons_of_mem e hx))

theorem lookupKey_mem {k v : Nat} {l : List (Nat × Nat)}
    (h : lookupKey k l = some v) : (k, v) ∈ l := by
  induction l with
  | nil => cases h
  | cons e rest ih =>
    by_cases hk : e.1 = k
    · subst hk
      simp only [lookupKey, if_true] at h
      injection h with hv
      subst hv
      have : (e.1, e.2) = e := rfl
      rw [this]
      exact List.mem_cons_self e rest
    · simp only [lookupKey, hk, if_false] at h
      exact List.mem_cons_of_mem e (ih h)

theorem key_nodup_eq {l : List (Nat × Nat)}
    (hnd : (l.map Prod.fst).Nodup) {x y : Nat × Nat} (hx : x ∈ l)
    (hy : y ∈ l) (hk : x.1 = y.1) : x = y := by
  induction l with
  | nil => cases hx
  | cons a rest ih =>
    rw [List.map_cons, List.nodup_cons] at hnd
    cases hx with
    | head =>
      cases hy with
      | head => rfl
      | tail _ hy' =>
        exact absurd (hk ▸ List.mem_map_of_mem Prod.fst hy') hnd.1
    | tail _ hx' =>
      cases hy with
      | head => exact absurd (hk ▸ List.mem_map_of_mem Prod.fst hx') hnd.1
      | tail _ hy' => exact ih hnd.2 hx' hy'

theorem reconnect_step_avoid (tbl : ProcTable) (now : Nat) (st : SupState)
    (e : Nat × Nat) (k : Nat) (h : e.1 ≠ k) :
    (reconnect_step tbl now st e).streams[k]? = st.streams[k]? ∧
    (reconnect_step tbl now st e).markers k = st.markers k ∧
    (reconnect_step tbl now st e).active k = st.active k := by
  have hk : k ≠ e.1 := Ne.symm h
  unfold reconnect_step
  by_cases hr : is_process_running tbl e.2
  · by_cases hlt : e.1 < st.streams.length
    · simp [hr, hlt, getElem?_setRowStatus_ne _ e.1 k _ hk,
        updFun_ne _ e.1 k _ hk]
    · simp [hr, hlt]
  · simp [bool_eq_false hr, cleanup_stream_files, updFun_ne _ e.1 k _ hk]

theorem reconnect_step_length (tbl : ProcTable) (now : Nat) (st : SupState)
    (e : Nat × Nat) :
    (reconnect_step tbl now st e).streams.length = st.streams.length := by
  unfold reconnect_step
  by_cases hr : is_process_running tbl e.2
  · by_cases hlt : e.1 < st.streams.length <;> simp [hr, hlt]
  · simp [bool_eq_false hr, cleanup_stream_files]

theorem reconnect_fold_length (tbl : ProcTable) (now : Nat)
    (l : List (Nat × Nat)) : ∀ st : SupState,
    (l.foldl (reconnect_step tbl now) st).streams.length =
      st.streams.length := by
  induction l with
  | nil => intro st; rfl
  | cons e rest ih =>
    intro st
    rw [List.foldl_cons, ih, reconnect_step_length]

theorem reconnect_fold_avoid (tbl : ProcTable) (now : Nat)
    (l : List (Nat × Nat)) (k : Nat) (h : ∀ e ∈ l, e.1 ≠ k) :
    ∀ st : SupState,
    (l.foldl (reconnect_step tbl now) st).streams[k]? = st.streams[k]? ∧
    (l.foldl (reconnect_step tbl now) st).markers k = st.markers k ∧
    (l.foldl (reconnect_step tbl now) st).active k = st.active k := by
  induction l with
  | nil => intro st; exact ⟨rfl, rfl, rfl⟩
  | cons e rest ih =>
    intro st
    rw [List.foldl_cons]
    have h1 := reconnect_step_avoid tbl now st e k
      (h e (List.mem_cons_self e rest))
    have h2 := ih (fun x hx => h x (List.mem_cons_of_mem e hx))
      (reconnect_step tbl now st e)
    exact ⟨h2.1.trans h1.1, (h2.2.1).trans h1.2.1, (h2.2.2).trans h1.2.2⟩

theorem reconnect_fold_pidFiles (tbl : ProcTable) (now : Nat)
    (l : List (Nat × Nat)) : ∀ st : SupState,
    (l.foldl (reconnect_step tbl now) st).pidFiles =
      st.pidFiles.filter (fun x => !(deadIn tbl l x.1)) := by
  induction l with
  | nil =>
    intro st
    simp [deadIn]
  | cons e rest ih =>
    intro st
    rw [List.foldl_cons, ih]
    by_cases hr : is_process_running tbl e.2
    · have hpf : (reconnect_step tbl now st e).pidFiles = st.pidFiles := by
        unfold reconnect_step
        by_cases hlt : e.1 < st.streams.length <;> simp [hr, hlt]
      rw [hpf]
      apply List.filter_congr
      intro x _
      simp [deadIn, hr]
    · have hpf : (reconnect_step tbl now st e).pidFiles =
          eraseKey e.1 st.pidFiles := by
        unfold reconnect_step
        simp [bool_eq_false hr, cleanup_stream_files]
      rw [hpf]
      unfold eraseKey
      rw [List.filter_filter]
      apply List.filter_congr
      intro x _
      by_cases hx : x.1 = e.1
      · simp [deadIn, hx, bool_eq_false hr]
      · have hx' : (e.1 == x.1) = false := by
          simp [Ne.symm hx]
        simp [deadIn, hx, hx', bool_eq_false hr]

theorem reconnect_fold_markers (tbl : ProcTable) (now : Nat)
    (l : List (Nat × Nat)) : ∀ (st : SupState) (k : Nat),
    (l.foldl (reconnect_step tbl now) st).markers k =
      if deadIn tbl l k then none else st.markers k := by
  induction l with
  | nil => intro st k; simp [deadIn]
  | cons e rest ih =>
    intro st k
    rw [List.foldl_cons, ih]
    by_cases hr : is_process_running tbl e.2
    · have hm : (reconnect_step tbl now st e).markers k = st.markers k := by
        unfold reconnect_step
        by_cases hlt : e.1 < st.streams.length <;> simp [hr, hlt]
      rw [hm]
      have hd : deadIn tbl (e :: rest) k = deadIn tbl rest k := by
        simp [deadIn, hr]
      rw [hd]
    · have hm : (reconnect_step tbl now st e).markers k =
          updFun st.markers e.1 none k := by
        unfold reconnect_step
        simp [bool_eq_false hr, cleanup_stream_files]
      rw [hm]
      by_cases hk : e.1 = k
      · subst hk
        have hd : deadIn tbl (e :: rest) e.1 = true := by
          simp [deadIn, bool_eq_false hr]
        rw [hd]
        by_cases hdr : deadIn tbl rest e.1 = true <;>
          simp [hdr, bool_eq_false, updFun_self]
      · have hk' : k ≠ e.1 := Ne.symm hk
        rw [updFun_ne _ e.1 k _ hk']
        have hd : deadIn tbl (e :: rest) k = deadIn tbl rest k := by
          have : (e.1 == k) = false := by simp [hk]
          simp [deadIn, this]
        rw [hd]

theorem reconnect_fold_active (tbl : ProcTable) (now : Nat)
    (l : List (Nat × Nat)) (hnd : (l.map Prod.fst).Nodup) :
    ∀ (st : SupState) (k : Nat),
    (l.foldl (reconnect_step tbl now) st).active k =
      match lookupKey k l with
      | some p =>
        if is_process_running tbl p then
          (if k < st.streams.length then some ⟨p, now⟩ else st.active k)
        else none
      | none => st.active k := by
  induction l with
  | nil => intro st k; rfl
  | cons e rest ih =>
    intro st k
    rw [List.map_cons, List.nodup_cons] at hnd
    rw [List.foldl_cons]
    by_cases hk : e.1 = k
    · subst hk
      have havoid : ∀ x ∈ rest, x.1 ≠ e.1 := by
        intro x hx hc
        exact hnd.1 (hc ▸ List.mem_map_of_mem Prod.fst hx)
      have h3 := (reconnect_fold_avoid tbl now rest e.1 havoid
        (reconnect_step tbl now st e)).2.2
      rw [h3]
      have hlk : lookupKey e.1 (e :: rest) = some e.2 := by
        simp [lookupKey]
      rw [hlk]
      unfold reconnect_step
      by_cases hr : is_process_running tbl e.2
      · by_cases hlt : e.1 < st.streams.length
        · simp [hr, hlt]
        · simp [hr, hlt]
      · simp [bool_eq_false hr, cleanup_stream_files]
    · have hlk : lookupKey k (e :: rest) = lookupKey k rest := by
        simp [lookupKey, hk]
      rw [hlk, ih hnd.2 (reconnect_step tbl now st e) k]
      have ha := (reconnect_step_avoid tbl now st e k hk).2.2
      have hl := reconnect_step_length tbl now st e
      rw [ha, hl]

theorem reconnect_fold_streams (tbl : ProcTable) (now : Nat)
    (l : List (Nat × Nat)) (hnd : (l.map Prod.fst).Nodup) :
    ∀ (st : SupState) (k : Nat),
    (l.foldl (reconnect_step tbl now) st).streams[k]? =
      match lookupKey k l with
      | some p =>
        if is_process_running tbl p then
          (st.streams[k]?).map (fun r => withStatus r "Sedang Live")
        else st.streams[k]?
      | none => st.streams[k]? := by
  induction l with
  | nil => intro st k; rfl
  | cons e rest ih =>
    intro st k
    rw [List.map_cons, List.nodup_cons] at hnd
    rw [List.foldl_cons]
    by_cases hk : e.1 = k
    · subst hk
      have havoid : ∀ x ∈ rest, x.1 ≠ e.1 := by
        intro x hx hc
        exact hnd.1 (hc ▸ List.mem_map_of_mem Prod.fst hx)
      have h3 := (reconnect_fold_avoid tbl now rest e.1 havoid
        (reconnect_step tbl now st e)).1
      rw [h3]
      have hlk : lookupKey e.1 (e :: rest) = some e.2 := by
        simp [lookupKey]
      rw [hlk]
      unfold reconnect_step
      by_cases hr : is_process_running tbl e.2
      · by_cases hlt : e.1 < st.streams.length
        · simp only [hr, hlt, if_true, getElem?_setRowStatus_self]
        · have hnone : st.streams[e.1]? = none :=
            List.getElem?_eq_none (by omega)
          simp [hr, hlt, hnone]
      · simp [bool_eq_false hr, cleanup_stream_files]
    · have hlk : lookupKey k (e :: rest) = lookupKey k rest := by
        simp [lookupKey, hk]
      rw [hlk, ih hnd.2 (reconnect_step tbl now st e) k]
      have hs := (reconnect_step_avoid tbl now st e k hk).1
      rw [hs]

theorem reconnect_pidFiles_eq (tbl : ProcTable) (now : Nat) (s : SupState)
    (hnd : (s.pidFiles.map Prod.fst).Nodup) :
    (reconnect_to_existing_streams tbl now s).pidFiles =
      s.pidFiles.filter (fun e => is_process_running tbl e.2) := by
  rw [reconnect_to_existing_streams, reconnect_fold_pidFiles]
  apply List.filter_congr
  intro x hx
  by_cases hr : is_process_running tbl x.2
  · have hd : deadIn tbl s.pidFiles x.1 = false := by
      rw [deadIn, List.any_eq_false]
      intro y hy
      by_cases hxy : y.1 = x.1
      · have : y = x := key_nodup_eq hnd hy hx hxy
        subst this
        simp [hr]
      · simp [hxy]
    simp [hd, hr]
  · have hd : deadIn tbl s.pidFiles x.1 = true := by
      rw [deadIn, List.any_eq_true]
      exact ⟨x, hx, by simp [bool_eq_false hr]⟩
    simp [hd, bool_eq_false hr]

theorem lookupKey_filter_running (tbl : ProcTable) {l : List (Nat × Nat)}
    (hnd : (l.map Prod.fst).Nodup) (k : Nat) :
    lookupKey k (l.filter (fun e => is_process_running tbl e.2)) =
      match lookupKey k l with
      | some p => if is_process_running tbl p then some p else none
      | none => none := by
  induction l with
  | nil => rfl
  | cons e rest ih =>
    rw [List.map_cons, List.nodup_cons] at hnd
    by_cases hk : e.1 = k
    · subst hk
      have hnone : lookupKey e.1
          (rest.filter (fun e => is_process_running tbl e.2)) = none := by
        apply lookupKey_eq_none
        intro x hx hc
        exact hnd.1 (hc ▸ List.mem_map_of_mem Prod.fst
          (List.mem_of_mem_filter hx))
      by_cases hr : is_process_running tbl e.2
      · rw [List.filter_cons]
        simp only [hr, if_true]
        simp [lookupKey, hr]
      · rw [List.filter_cons]
        simp only [bool_eq_false hr, Bool.false_eq_true, if_false]
        rw [hnone]
        simp [lookupKey, bool_eq_false hr]
    · have hcons : lookupKey k (e :: rest) = lookupKey k rest := by
        simp [lookupKey, hk]
      by_cases hr : is_process_running tbl e.2
      · rw [List.filter_cons]
        simp only [hr, if_true]
        have hskip : lookupKey k
            (e :: rest.filter (fun e => is_process_running tbl e.2)) =
            lookupKey k (rest.filter (fun e => is_process_running tbl e.2)) := by
          simp [lookupKey, hk]
        rw [hskip, ih hnd.2, hcons]
      · rw [List.filter_cons]
        simp only [bool_eq_false hr, Bool.false_eq_true, if_false]
        rw [ih hnd.2, hcons]

/-- C3 counterexample: row 0 has marker "error:Connection refused", a pid
file for dead pid 37 and an ActiveProcessEntry; after reconciliation the
ActiveProcessEntry is gone but the status is still "Sedang Live" — the
Reconciler never writes the Errored status the claim requires (it deletes
the marker without resolving it). -/
theorem reconnect_leaves_status_unresolved :
    exampleErrState.markers 0 = some "error:Connection refused" ∧
    ((reconnect_to_existing_streams [] 5 exampleErrState).streams[0]?).map
        StreamRow.status = some "Sedang Live" ∧
    strStartsWith "Sedang Live" "error:" = false := by
  exact ⟨rfl, rfl, rfl⟩

/-- C3 amended: for a stream whose pid file names a pid with no live ffmpeg
process, reconciliation deletes the marker and the pid file and removes the
ActiveProcessEntry, but leaves the record's status unchanged — it does not
set Errored; marker-driven status resolution only happens later in
check_stream_statuses if a marker survives. -/
theorem reconnect_resolves_dead_entry (tbl : ProcTable) (now : Nat)
    (s : SupState) (id pid : Nat)
    (hnd : (s.pidFiles.map Prod.fst).Nodup)
    (hlk : lookupKey id s.pidFiles = some pid)
    (hdead : is_process_running tbl pid = false) :
    (reconnect_to_existing_streams tbl now s).markers id = none ∧
    (reconnect_to_existing_streams tbl now s).active id = none ∧
    lookupKey id (reconnect_to_existing_streams tbl now s).pidFiles = none ∧
    (reconnect_to_existing_streams tbl now s).streams[id]? =
      s.streams[id]? := by
  have hmem : (id, pid) ∈ s.pidFiles := lookupKey_mem hlk
  have hdean : deadIn tbl s.pidFiles id = true := by
    rw [deadIn, List.any_eq_true]
    exact ⟨(id, pid), hmem, by simp [hdead]⟩
  refine ⟨?_, ?_, ?_, ?_⟩
  · rw [reconnect_to_existing_streams,
      reconnect_fold_markers tbl now s.pidFiles s id, hdean, if_pos rfl]
  · rw [reconnect_to_existing_streams,
      reconnect_fold_active tbl now s.pidFiles hnd s id, hlk]
    simp [hdead]
  · rw [reconnect_pidFiles_eq tbl now s hnd,
      lookupKey_filter_running tbl hnd id, hlk]
    simp [hdead]
  · rw [reconnect_to_existing_streams,
      reconnect_fold_streams tbl now s.pidFiles hnd s id, hlk]
    simp [hdead]

/-- Witness for C3 amended at the concrete stale state with dead pid 37. -/
theorem reconnect_resolves_dead_entry_witness :
    ((exampleErrState.pidFiles.map Prod.fst).Nodup ∧
      lookupKey 0 exampleErrState.pidFiles = some 37 ∧
      is_process_running [] 37 = false) ∧
    (reconnect_to_existing_streams [] 5 exampleErrState).active 0 = none := by
  refine ⟨⟨by decide, rfl, rfl⟩, ?_⟩
  exact (reconnect_resolves_dead_entry [] 5 exampleErrState 0 37
    (by decide) rfl rfl).2.1

/-- C9: with the process table unchanged (and the reconciliation timestamp
fixed), running the Reconciler a second time changes nothing — every
component of the state is already a fixed point — and with no pid files
present reconciliation is the identity. -/
theorem reconnect_idempotent (tbl : ProcTable) (now : Nat) (s : SupState)
    (hnd : (s.pidFiles.map Prod.fst).Nodup) :
    reconnect_to_existing_streams tbl now
        (reconnect_to_existing_streams tbl now s) =
      reconnect_to_existing_streams tbl now s ∧
    (s.pidFiles = [] → reconnect_to_existing_streams tbl now s = s) := by
  constructor
  · set s1 := reconnect_to_existing_streams tbl now s with hs1
    have hpf1 : s1.pidFiles =
        s.pidFiles.filter (fun e => is_process_running tbl e.2) :=
      reconnect_pidFiles_eq tbl now s hnd
    have hnd1 : (s1.pidFiles.map Prod.fst).Nodup := by
      rw [hpf1]
      exact List.Nodup.sublist
        ((List.filter_sublist s.pidFiles).map Prod.fst) hnd
    have hlen1 : s1.streams.length = s.streams.length := by
      rw [hs1, reconnect_to_existing_streams]
      exact reconnect_fold_length tbl now s.pidFiles s
    have hrun_of_mem : ∀ x, x ∈ s1.pidFiles →
        is_process_running tbl x.2 = true := by
      intro x hx
      rw [hpf1] at hx
      exact (List.mem_filter.mp hx).2
    have hlk_run : ∀ k p, lookupKey k s1.pidFiles = some p →
        is_process_running tbl p = true := by
      intro k p h
      exact hrun_of_mem (k, p) (lookupKey_mem h)
    have hlk0 : ∀ k p, lookupKey k s1.pidFiles = some p →
        lookupKey k s.pidFiles = some p := by
      intro k p h
      rw [hpf1, lookupKey_filter_running tbl hnd k] at h
      cases hq : lookupKey k s.pidFiles with
      | none =>
        rw [hq] at h
        exact Option.noConfusion h
      | some q =>
        rw [hq] at h
        have h' : (if is_process_running tbl q = true then some q else none)
            = some p := h
        by_cases hqr : is_process_running tbl q = true
        · rw [if_pos hqr] at h'
          injection h' with h''
          subst h''
          rfl
        · rw [if_neg hqr] at h'
          exact Option.noConfusion h'
    apply SupState.ext
    · apply List.ext_getElem?
      intro k
      rw [reconnect_to_existing_streams,
        reconnect_fold_streams tbl now s1.pidFiles hnd1 s1 k]
      cases hl2 : lookupKey k s1.pidFiles with
      | none => rfl
      | some p =>
        have hr := hlk_run k p hl2
        have hs1k : s1.streams[k]? =
            (s.streams[k]?).map (fun r => withStatus r "Sedang Live") := by
          rw [hs1, reconnect_to_existing_streams,
            reconnect_fold_streams tbl now s.pidFiles hnd s k, hlk0 k p hl2]
          simp [hr]
        show (if is_process_running tbl p = true then
            Option.map (fun r => withStatus r "Sedang Live") s1.streams[k]?
          else s1.streams[k]?) = s1.streams[k]?
        rw [if_pos hr, hs1k]
        cases s.streams[k]? <;> simp [withStatus]
    · funext k
      rw [reconnect_to_existing_streams,
        reconnect_fold_markers tbl now s1.pidFiles s1 k]
      have hd : deadIn tbl s1.pidFiles k = false := by
        rw [deadIn, List.any_eq_false]
        intro x hx
        simp [hrun_of_mem x hx]
      rw [hd]
      rfl
    · rw [reconnect_pidFiles_eq tbl now s1 hnd1]
      apply List.filter_eq_self.mpr
      intro x hx
      exact hrun_of_mem x hx
    · funext k
      rw [reconnect_to_existing_streams,
        reconnect_fold_active tbl now s1.pidFiles hnd1 s1 k]
      cases hl2 : lookupKey k s1.pidFiles with
      | none => rfl
      | some p =>
        have hr := hlk_run k p hl2
        by_cases hk : k < s1.streams.length
        · have hk' : k < s.streams.length := by omega
          have hact : s1.active k = some ⟨p, now⟩ := by
            rw [hs1, reconnect_to_existing_streams,
              reconnect_fold_active tbl now s.pidFiles hnd s k,
              hlk0 k p hl2]
            simp [hr, hk']
          simp [hr, hk, hact]
        · simp [hr, hk]
  · intro h
    rw [reconnect_to_existing_streams, h]
    rfl

/-- Witness for C9 at the concrete stale state (unique pid-file keys). -/
theorem reconnect_idempotent_witness :
    (exampleErrState.pidFiles.map Prod.fst).Nodup ∧
    reconnect_to_existing_streams [] 5
        (reconnect_to_existing_streams [] 5 exampleErrState) =
      reconnect_to_existing_streams [] 5 exampleErrState := by
  refine ⟨by decide, ?_⟩
  exact (reconnect_idempotent [] 5 exampleErrState (by decide)).1

end App
